import Mathlib

/-!
Shallow embedding of the HomeyScript app core (script registry, token
registry, sandboxed execution engine) for checking the natural-language
specification against the code.

The repository ships two near-duplicate variants of the same class:
`src/app.js` (called V1 below) and `src/unnamed/part_000` (called V2 / P0
below). Definitions are translated from those sources; where the two
variants differ, both are embedded.

Modelling conventions:
- JavaScript objects used as string-keyed maps (`this.scripts`,
  `this.tokens`, ...) are association lists `List (String × α)` in
  insertion order, which matches JS iteration order for string keys;
  `objGet`/`objSet`/`objDel` model property read, property assignment
  (overwrite in place, append if new) and the `delete` operator.
- `null` and `undefined` are conflated into `Option.none` for stored
  record fields: every code path embedded here treats them alike
  (`value == null` loose checks, `typeof x !== "string"`, spread of a
  missing key), except where noted in a doc comment.
- JS `Date` objects are their millisecond time value (`Int`);
  `new Date(null)` has time value `0` (the epoch).
- The persistence collaborator (`this.homey.settings.set`) is modelled by
  mirroring the persisted copy of each map inside the state.
-/

/-- A JavaScript primitive value, as far as the embedded code inspects one. -/
inductive JsVal where
  | null
  | undef
  | num (n : Int)
  | str (s : String)
  | bool (b : Bool)
deriving DecidableEq, Repr

/-- JavaScript `typeof`, used for the `type = typeof value` default
parameter of `setToken`. `typeof null` is `"object"`. -/
def typeofJs : JsVal → String
  | .null => "object"
  | .undef => "undefined"
  | .num _ => "number"
  | .str _ => "string"
  | .bool _ => "boolean"

/-- A JavaScript `Error` as the embedded code observes it: the
`message` and `stack` properties. -/
structure JsError where
  message : String
  stack : String
deriving DecidableEq, Repr

/-- Property read `o[k]` on a string-keyed JS object. -/
def objGet {α : Type} : List (String × α) → String → Option α
  | [], _ => none
  | (k', v) :: rest, k => if k' == k then some v else objGet rest k

/-- Property assignment `o[k] = v`: overwrites in place when the key is
present, appends otherwise (JS insertion order). -/
def objSet {α : Type} : List (String × α) → String → α → List (String × α)
  | [], k, v => [(k, v)]
  | (k', v') :: rest, k, v =>
    if k' == k then (k, v) :: rest else (k', v') :: objSet rest k v

/-- The JS `delete o[k]` operator: removes the key, keeps the order of
the remaining keys. -/
def objDel {α : Type} : List (String × α) → String → List (String × α)
  | [], _ => []
  | (k', v') :: rest, k =>
    if k' == k then objDel rest k else (k', v') :: objDel rest k

/-! ## ScriptStore -/

/-- One entry of the persisted script registry. Fields are `Option`
because legacy entries may lack `name`/`id` (and `typeof name` is then not
`"string"`); `lastExecuted` is `none` when the stored value is JS `null`. -/
structure ScriptEntry where
  id : Option String
  name : Option String
  code : Option String
  lastExecuted : Option Int
deriving DecidableEq, Repr

/-- The script registry `this.scripts`, in JS key insertion order. -/
abbrev Registry := List (String × ScriptEntry)

/-- App state relevant to the ScriptStore: the in-memory registry, the
persisted copy held by `this.homey.settings`, and a counter supplying
fresh identifiers (modelling the `uuid` collaborator). -/
structure ScriptsState where
  scripts : Registry
  persistedScripts : Registry
  uuidCounter : Nat
deriving DecidableEq, Repr

/-- The fresh id `uuid.v4()` returns for the current state; modelled as a
counter-indexed string, which is fresh as long as no registry key uses the
reserved `uuid-` spelling. -/
def freshUuid (st : ScriptsState) : String :=
  "uuid-" ++ toString st.uuidCounter

/-- `createScript({ name, code })` from `src/app.js` lines 367-379 (and
`createScriptV2` of `part_000`, identical up to the uuid collaborator):
builds a script with a fresh id and `lastExecuted: null`, stores it under
its id, persists, and returns it. -/
def createScript (st : ScriptsState) (name code : String) : ScriptsState × ScriptEntry :=
  let newScript : ScriptEntry :=
    { id := some (freshUuid st), name := some name, code := some code, lastExecuted := none }
  let scripts2 := objSet st.scripts (freshUuid st) newScript
  ({ st with
      scripts := scripts2
      persistedScripts := scripts2
      uuidCounter := st.uuidCounter + 1 },
    newScript)

/-- `new Date(script.lastExecuted)` where the stored value is a Date or
`null`: `new Date(null)` coerces `null` to `0`, giving the epoch. -/
def newDateOfNullable (t : Option Int) : Int := t.getD 0

/-- `getScript({ id })` from `src/app.js` lines 244-255 (identical in
`part_000`): throws `Script Not Found` when the id is absent, otherwise
returns a copy of the entry with `lastExecuted` wrapped in
`new Date(...)` — so the returned `lastExecuted` is always a Date object,
never `null`. -/
def getScript (st : ScriptsState) (id : String) : Except JsError ScriptEntry :=
  match objGet st.scripts id with
  | none => .error { message := "Script Not Found", stack := "" }
  | some s => .ok { s with lastExecuted := some (newDateOfNullable s.lastExecuted) }

/-- C2 counterexample state: the empty registry. -/
def c2State : ScriptsState := { scripts := [], persistedScripts := [], uuidCounter := 0 }

/-! ## TokenRegistry -/

/-- One entry of `this.tokens`: the persisted `{ type, value }` record. -/
structure TokenEntry where
  type : String
  value : JsVal
deriving DecidableEq, Repr

/-- Membership of an id in `this.tokensInstances` (truthiness of
`this.tokensInstances[id]`). -/
def hasId : List String → String → Bool
  | [], _ => false
  | x :: rest, k => x == k || hasId rest k

/-- `delete this.tokensInstances[id]`. -/
def delId : List String → String → List String
  | [], _ => []
  | x :: rest, k => if x == k then delId rest k else x :: delId rest k

/-- `instance.setValue(value)` on the live flow token: the external flow
manager keeps the token but replaces its value. -/
def flowSetValue : List (String × TokenEntry) → String → JsVal → List (String × TokenEntry)
  | [], _, _ => []
  | (k', e) :: rest, k, v =>
    if k' == k then (k', { e with value := v }) :: rest
    else (k', e) :: flowSetValue rest k v

/-- Token-registry state: the persisted-in-memory `this.tokens` map, the
live handle map `this.tokensInstances` (modelled by the ids it holds), the
tokens registered in the external flow manager, and the persisted copy of
`this.tokens`. -/
structure TokenState where
  tokens : List (String × TokenEntry)
  tokensInstances : List String
  flowTokens : List (String × TokenEntry)
  persistedTokens : List (String × TokenEntry)
deriving DecidableEq, Repr

/-- `setToken({ id, value, type = typeof value })` from `src/app.js`
lines 201-238 (semantically identical in `part_000` lines 205-244).
`unregOk` models whether the external `unregister()` call succeeds; its
failure is caught (`.catch(this.error)`) — logged, not raised — leaving
the flow-side token registered but proceeding with the deletion.
`createToken`/`setValue` are awaited uncaught external calls, modelled as
succeeding. In the update branch, `this.tokens[id].value = value` throws a
TypeError when `this.tokens[id]` is missing while a handle exists; the
`Except` error drops the partial flow-side effect, which no theorem below
relies on. -/
def setToken (st : TokenState) (id : String) (value : JsVal) (ty : String)
    (unregOk : Bool) : Except JsError TokenState :=
  if value == .undef || value == .null then
    -- Delete the Token
    let st1 :=
      if hasId st.tokensInstances id then
        { st with flowTokens := if unregOk then objDel st.flowTokens id else st.flowTokens }
      else st
    if (objGet st1.tokens id).isSome then
      let tokens2 := objDel st1.tokens id
      .ok { st1 with
              tokens := tokens2
              tokensInstances := delId st1.tokensInstances id
              persistedTokens := tokens2 }
    else .ok st1
  else if !hasId st.tokensInstances id then
    -- Create the Token
    let tokens2 := objSet st.tokens id { type := ty, value := value }
    .ok { st with
            flowTokens := objSet st.flowTokens id { type := ty, value := value }
            tokensInstances := st.tokensInstances ++ [id]
            tokens := tokens2
            persistedTokens := tokens2 }
  else
    -- Update the Token
    let st1 := { st with flowTokens := flowSetValue st.flowTokens id value }
    match objGet st1.tokens id with
    | none => .error { message := "Cannot set properties of undefined", stack := "" }
    | some e =>
      let tokens2 := objSet st1.tokens id { e with value := value }
      .ok { st1 with tokens := tokens2, persistedTokens := tokens2 }

/-- `setToken` with the defaulted `type = typeof value` parameter, as
called by the injected `tag(id, value)` capability. -/
def setTokenD (st : TokenState) (id : String) (value : JsVal) (unregOk : Bool) :
    Except JsError TokenState :=
  setToken st id value (typeofJs value) unregOk

/-! ## CapabilityBinding: the deprecated `setTagValue` -/

/-- The deprecation warning line logged by `setTagValue`. -/
def deprecationWarning : String :=
  "Warning: setTagValue(id, opts, value) is deprecated, please use tag(id, value)"

/-- The injected capability `setTagValue: async (id, opts, value)` from
`src/app.js` lines 324-332 (identical in `part_000` lines 332-340): logs
the deprecation warning through the run logger, then awaits
`this.setToken({ id, value, type: opts.type })`. The run logger is
modelled by the list of lines it has recorded. -/
def setTagValue (st : TokenState) (logs : List String) (id : String) (optsType : String)
    (value : JsVal) (unregOk : Bool) : Except JsError (TokenState × List String) :=
  let logs2 := logs ++ [deprecationWarning]
  match setToken st id value optsType unregOk with
  | .error e => .error e
  | .ok st2 => .ok (st2, logs2)

/-- How many deprecation warnings a log carries. -/
def countWarnings (logs : List String) : Nat :=
  logs.countP (fun l => l == deprecationWarning)

/-- C8 counterexample state: the empty token state. -/
def c8State : TokenState := { tokens := [], tokensInstances := [], flowTokens := [], persistedTokens := [] }

/-! ## ExecutionEngine: `runScript` error normalization and handle release

The sandbox itself (Node `vm`) is an external collaborator; a run is
modelled by its outcome at the `await runPromise` boundary: either the
resolved value, or the error that reaches the `catch` block (a compile
error thrown by `new vm.Script`, an error thrown by the script, or the
timeout error raised by the vm boundary — all of them reach the same
`catch`). The host-API handle (`getHomeyAPI()` builds a fresh
`new HomeyAPI(...)` client per call) is modelled by a counter-indexed
handle number. -/

/-- What the sandbox run does, observed at the try/catch boundary. -/
inductive RunOutcome where
  | success (v : JsVal)
  | compileError (e : JsError)
  | thrownError (e : JsError)
  | timeout (e : JsError)
deriving DecidableEq, Repr

/-- The observable result of one `runScript` call: the value returned or
error raised, the handle it acquired, the handles it destroyed on the way
out, and the next free handle number. -/
structure RunResult where
  result : Except JsError JsVal
  acquiredHandle : Nat
  destroyedHandles : List Nat
  nextHandleCounter : Nat
deriving Repr

/-- The `catch` block of `src/app.js` runScript (lines 353-359):
`const error = new Error(err.message); error.stack = err.stack;` — the
new error is built at the catch site (its own stack is `freshStack`) and
then its stack is overwritten with the sandbox error's stack. -/
def catchBlockV1 (err : JsError) (freshStack : String) : JsError :=
  let error : JsError := { message := err.message, stack := freshStack }
  { error with stack := err.stack }

/-- The `catch` block of `part_000` runScript (lines 367-373):
`const error = new Error(err.message); error.stack = error.stack;` — the
stack assignment reads the new error's own stack back into itself, so the
raised error keeps the catch-site stack `freshStack`, not the sandbox
error's stack. -/
def catchBlockV2 (err : JsError) (freshStack : String) : JsError :=
  let error : JsError := { message := err.message, stack := freshStack }
  { error with stack := error.stack }

/-- The shared try/catch/finally shape of `runScript` in both variants:
acquire a fresh host-API handle, run the sandbox, normalize any error
through the variant's catch block, and destroy the handle in `finally`
on every path out. -/
def runScriptWith (catcher : JsError → JsError) (handleCounter : Nat)
    (outcome : RunOutcome) : RunResult :=
  let homeyAPI := handleCounter
  let tryResult : Except JsError JsVal :=
    match outcome with
    | .success v => .ok v
    | .compileError e => .error (catcher e)
    | .thrownError e => .error (catcher e)
    | .timeout e => .error (catcher e)
  { result := tryResult
    acquiredHandle := homeyAPI
    destroyedHandles := [homeyAPI]
    nextHandleCounter := handleCounter + 1 }

/-- `runScript` of `src/app.js` lines 257-365, restricted to its
result/handle behaviour. -/
def runScriptV1 (handleCounter : Nat) (outcome : RunOutcome) (freshStack : String) : RunResult :=
  runScriptWith (fun e => catchBlockV1 e freshStack) handleCounter outcome

/-- `runScript` of `part_000` lines 262-377, restricted to its
result/handle behaviour. -/
def runScriptV2 (handleCounter : Nat) (outcome : RunOutcome) (freshStack : String) : RunResult :=
  runScriptWith (fun e => catchBlockV2 e freshStack) handleCounter outcome

/-! ## Migrations -/

/-- Loop body of the `src/app.js` onInit migration (lines 83-89): when the
entry's `name` is not a string (`Option.none` here), set both `name` and
`id` to the entry's registry key; otherwise leave the entry alone. -/
def migrateEntryV1 (p : String × ScriptEntry) : String × ScriptEntry :=
  match p.2.name with
  | some _ => p
  | none => (p.1, { p.2 with name := some p.1, id := some p.1 })

/-- The `src/app.js` onInit migration (lines 78-94) over the registry. -/
def migrateScriptsV1 (reg : Registry) : Registry :=
  reg.map migrateEntryV1

/-- Loop body of migration 0 of `part_000` (lines 86-92): rebuilds the
entry with `id` and `name` set to its registry key, with no condition on
the entry. -/
def migrateEntryV2 (p : String × ScriptEntry) : String × ScriptEntry :=
  (p.1, { p.2 with id := some p.1, name := some p.1 })

/-- Migration 0 of `part_000`, the loop only: applies `migrateEntryV2` to
**every** entry. -/
def migration0 (reg : Registry) : Registry :=
  reg.map migrateEntryV2

/-- State of the `part_000` onInit migration step: the registry and the
`migrations[0]` marker (`none` models `this.migrations[0] == null`,
`some true` the persisted `{ done: true }` marker), each with its
persisted copy. -/
structure MigStateV2 where
  scripts : Registry
  migrations0 : Option Bool
  persistedScripts : Registry
  persistedMigrations0 : Option Bool
deriving DecidableEq, Repr

/-- The guarded migration step of `part_000` onInit (lines 80-99): if
`migrations[0] == null` (and scripts exist — always an object after
bootstrap, so not modelled as a condition), run `migration0` over the
registry, persist it, and persist the `{ done: true }` marker at index 0;
otherwise do nothing. -/
def onInitMigration0 (st : MigStateV2) : MigStateV2 :=
  if st.migrations0.isNone then
    let nextScripts := migration0 st.scripts
    { scripts := nextScripts
      migrations0 := some true
      persistedScripts := nextScripts
      persistedMigrations0 := some true }
  else st

/-- C5 counterexample state: one fully-populated entry (it lacks neither
`name` nor `id`) under key `"k"`, with migration 0 not yet applied. -/
def c5State : MigStateV2 :=
  { scripts := [("k", { id := some "other-id", name := some "Foo",
                        code := some "c", lastExecuted := none })]
    migrations0 := none
    persistedScripts := [("k", { id := some "other-id", name := some "Foo",
                                 code := some "c", lastExecuted := none })]
    persistedMigrations0 := none }

/-! ## Partial updates -/

/-- The entry that `{...undefined}` (V1) or `undefined || {}` (P0)
produces: an object with no fields. -/
def emptyEntry : ScriptEntry :=
  { id := none, name := none, code := none, lastExecuted := none }

/-- The destructured payload of `updateScript({ id, name, code,
lastExecuted })` in `src/app.js`. A field provided as `null` and an
absent field are conflated into `none`: the guards `name != null` etc.
are loose comparisons that treat `null` and `undefined` alike. -/
structure UpdatePayload where
  name : Option String := none
  code : Option String := none
  lastExecuted : Option Int := none
deriving DecidableEq, Repr

/-- `updateScript` from `src/app.js` lines 381-403: copies the existing
entry (the spread of `undefined` yields an empty object when the id is
unknown — no NotFound error is raised), then assigns each provided
non-null field, stores the result under `id`, persists, and returns it. -/
def updateScript (st : ScriptsState) (id : String) (p : UpdatePayload) :
    ScriptsState × ScriptEntry :=
  let base := match objGet st.scripts id with
    | some s => s
    | none => emptyEntry
  let s1 := match p.name with
    | some n => { base with name := some n }
    | none => base
  let s2 := match p.code with
    | some c => { s1 with code := some c }
    | none => s1
  let s3 := match p.lastExecuted with
    | some t => { s2 with lastExecuted := some t }
    | none => s2
  let scripts2 := objSet st.scripts id s3
  ({ st with scripts := scripts2, persistedScripts := scripts2 }, s3)

/-- The `script` payload of `updateScriptV2({ id, script })` in
`part_000`. Here a provided field and an absent field must be
distinguished from a field provided as `null`, because the object spread
`{...script}` copies provided `null` fields: outer `none` = key absent,
`some none` = key provided with value `null`, `some (some v)` = key
provided with value `v`. (A provided `script.id` would be overwritten by
the trailing `id: id` and is therefore not modelled.) -/
structure UpdatePayloadV2 where
  name : Option (Option String) := none
  code : Option (Option String) := none
  lastExecuted : Option (Option Int) := none
deriving DecidableEq, Repr

/-- One field of the object spread `{...base, ...script}`: a key provided
in `script` overwrites the base value even when its value is `null`; an
absent key keeps the base value. -/
def spreadField {α : Type} (old : Option α) (p : Option (Option α)) : Option α :=
  match p with
  | none => old
  | some v => v

/-- `updateScriptV2({ id, script })` from `part_000` lines 404-414:
`this.scripts[id] = { ...this.scripts[id], ...script, id: id }` — merges
by object spread (so provided `null` fields overwrite) and always forces
the `id` field to the registry key; then persists and returns the entry. -/
def updateScriptV2 (st : ScriptsState) (id : String) (p : UpdatePayloadV2) :
    ScriptsState × ScriptEntry :=
  let base := match objGet st.scripts id with
    | some s => s
    | none => emptyEntry
  let merged : ScriptEntry :=
    { id := some id
      name := spreadField base.name p.name
      code := spreadField base.code p.code
      lastExecuted := spreadField base.lastExecuted p.lastExecuted }
  let scripts2 := objSet st.scripts id merged
  ({ st with scripts := scripts2, persistedScripts := scripts2 }, merged)

/-- `updateScript({ id, code })` from `part_000` lines 379-383:
`this.scripts[id] = this.scripts[id] || {}; this.scripts[id].code = code`
— creates the entry when absent, overwrites `code` unconditionally,
persists. -/
def updateScriptP0 (st : ScriptsState) (id : String) (code : Option String) : ScriptsState :=
  let base := match objGet st.scripts id with
    | some s => s
    | none => emptyEntry
  let s := { base with code := code }
  let scripts2 := objSet st.scripts id s
  { st with scripts := scripts2, persistedScripts := scripts2 }

/-- C6 counterexample state: one entry under key `"a"` with name `"N"`. -/
def c6State : ScriptsState :=
  { scripts := [("a", { id := some "a", name := some "N", code := some "C",
                        lastExecuted := none })]
    persistedScripts := [("a", { id := some "a", name := some "N", code := some "C",
                                 lastExecuted := none })]
    uuidCounter := 0 }

/-! ## AutocompleteIndex -/

/-- Whether `needle` is a prefix of `hay` (character lists). -/
def strStartsWith : List Char → List Char → Bool
  | _, [] => true
  | [], _ :: _ => false
  | c :: cs, d :: ds => c == d && strStartsWith cs ds

/-- Contiguous-substring scan over character lists. -/
def subSearch : List Char → List Char → Bool
  | [], needle => needle.isEmpty
  | c :: cs, needle => strStartsWith (c :: cs) needle || subSearch cs needle

/-- JavaScript `String.prototype.includes`: contiguous substring test. -/
def jsIncludes (hay needle : String) : Bool :=
  subSearch hay.toList needle.toList

/-- JavaScript `String.prototype.toLowerCase`, modelled character-wise
with `Char.toLower`. -/
def jsToLower (s : String) : String :=
  String.mk (s.data.map Char.toLower)

/-- `onFlowGetScriptAutocomplete(query)` from `src/app.js` lines 191-199:
`Object.values(scripts).filter(script =>
script.name.toLowerCase().includes(query.toLowerCase())).map(...)` in
registry iteration order. Reading `.toLowerCase()` of a missing `name`
throws a TypeError, hence the `Except`; the `{id, name}` items carry the
entry's own (possibly absent) fields. -/
def onFlowGetScriptAutocompleteV1 :
    Registry → String → Except JsError (List (Option String × Option String))
  | [], _ => .ok []
  | (_, s) :: rest, q =>
    match s.name with
    | none => .error { message := "Cannot read properties of undefined", stack := "" }
    | some n =>
      match onFlowGetScriptAutocompleteV1 rest q with
      | .error e => .error e
      | .ok tail =>
        .ok (if jsIncludes (jsToLower n) (jsToLower q) then (s.id, s.name) :: tail else tail)

/-- `onFlowGetScriptAutocomplete(query)` from `part_000` lines 195-203:
`Object.keys(scripts).filter(id =>
id.toLowerCase().includes(query.toLowerCase())).map(id => ({id, name: id}))`
— it matches the query against the registry *key*, not the script's
`name`, and returns the key in both fields. -/
def onFlowGetScriptAutocompleteV2 (scripts : Registry) (q : String) : List (String × String) :=
  ((scripts.map (fun p => p.1)).filter
      (fun id => jsIncludes (jsToLower id) (jsToLower q))).map (fun id => (id, id))

/-- The spec's description of `search(query)`, stated in its own words for
the refinement comparison: the scripts whose `name` contains the query as
a case-insensitive substring, each as an `{id, name}` pair, in registry
iteration order, with no ranking. -/
def searchSpec (scripts : Registry) (q : String) : List (Option String × Option String) :=
  (scripts.filter
      (fun p => jsIncludes (jsToLower (p.2.name.getD "")) (jsToLower q))).map
    (fun p => (p.2.id, p.2.name))

/-- Equality of `Except` results is decidable componentwise. -/
instance {ε α : Type} [DecidableEq ε] [DecidableEq α] : DecidableEq (Except ε α) := fun a b =>
  match a, b with
  | .error x, .error y =>
    if h : x = y then isTrue (congrArg Except.error h)
    else isFalse (fun hc => h (Except.error.inj hc))
  | .ok x, .ok y =>
    if h : x = y then isTrue (congrArg Except.ok h)
    else isFalse (fun hc => h (Except.ok.inj hc))
  | .error _, .ok _ => isFalse (fun hc => Except.noConfusion hc)
  | .ok _, .error _ => isFalse (fun hc => Except.noConfusion hc)

/-- C7 counterexample registry: one script stored under the uuid-style key
`"u1"` whose display name is `"foo"`. -/
def c7Scripts : Registry :=
  [("u1", { id := some "u1", name := some "foo", code := some "c", lastExecuted := none })]

/-! ## Theorems -/

@[simp] theorem objGet_objSet_self {α : Type} (l : List (String × α)) (k : String) (v : α) :
    objGet (objSet l k v) k = some v := by
  induction l with
  | nil => simp [objGet, objSet]
  | cons hd tl ih =>
    obtain ⟨k', v'⟩ := hd
    by_cases h : k' == k
    · simp [objGet, objSet, h]
    · simp [objGet, objSet, h, ih]

@[simp] theorem objGet_objDel_self {α : Type} (l : List (String × α)) (k : String) :
    objGet (objDel l k) k = none := by
  induction l with
  | nil => simp [objGet, objDel]
  | cons hd tl ih =>
    obtain ⟨k', v'⟩ := hd
    by_cases h : k' == k
    · simp [objDel, h, ih]
    · simp [objGet, objDel, h, ih]

theorem objGet_objSet_ne {α : Type} (l : List (String × α)) (k k' : String) (v : α)
    (h : (k == k') = false) : objGet (objSet l k v) k' = objGet l k' := by
  induction l with
  | nil => simp [objGet, objSet, h]
  | cons hd tl ih =>
    obtain ⟨k0, v0⟩ := hd
    by_cases h0 : k0 == k
    · have hk : k0 = k := by simpa using h0
      simp [objGet, objSet, h0, hk, h]
    · simp [objGet, objSet, h0, ih]

/-- **C2** (counterexample). The claim states that `get` on the id
returned by `create(name, code)` yields a definition whose `lastExecuted`
is null. At the concrete input `create("a", "b")` on an empty registry,
`getScript` returns `lastExecuted` equal to the epoch Date (time value 0),
not null: `getScript` coerces the stored `null` through `new Date(...)`. -/
theorem c2_counterexample :
    (getScript (createScript c2State "a" "b").1 "uuid-0").map ScriptEntry.lastExecuted
        = .ok (some 0) ∧
    (some 0 : Option Int) ≠ none := by
  constructor
  · rfl
  · decide

/-- **C2** (amended). For every state, name and code:
`create(name, code)` returns a script whose id is the fresh uuid and whose
stored `lastExecuted` is null, and `get` on that id returns a definition
with the given `name` and `code` — but with `lastExecuted` coerced to the
epoch Date (time value 0) rather than null. -/
theorem c2_amended (st : ScriptsState) (name code : String) :
    (createScript st name code).2.id = some (freshUuid st) ∧
    (createScript st name code).2.lastExecuted = none ∧
    getScript (createScript st name code).1 (freshUuid st)
      = .ok { id := some (freshUuid st), name := some name, code := some code,
              lastExecuted := some 0 } := by
  refine ⟨rfl, rfl, ?_⟩
  simp [getScript, createScript, newDateOfNullable]

@[simp] theorem hasId_delId_self (l : List String) (k : String) :
    hasId (delId l k) k = false := by
  induction l with
  | nil => simp [hasId, delId]
  | cons x rest ih =>
    by_cases h : x == k
    · simp [delId, h, ih]
    · simp [delId, hasId, h, ih]

@[simp] theorem hasId_append_singleton (l : List String) (k : String) :
    hasId (l ++ [k]) k = true := by
  induction l with
  | nil => simp [hasId]
  | cons x rest ih => simp [hasId, ih]

/-- **C4** (confirmed). For every token state that is consistent at `id`
(an entry exists iff a live handle exists — the reconciliation invariant
the registry maintains), `setToken(id, 5)` followed by `setToken(id, null)`
raises nothing (the composite run is `.ok`), removes the entry, removes
the live handle, persists the removal, and — whenever the `unregister()`
call succeeds — leaves no token registered flow-side either; an
`unregister()` failure is swallowed and does not affect the entry or the
handle map. -/
theorem c4_set_then_delete_token (st : TokenState) (id : String) (u1 u2 : Bool)
    (hcons : (objGet st.tokens id).isSome = hasId st.tokensInstances id) :
    ((setTokenD st id (.num 5) u1).bind (fun st1 => setTokenD st1 id .null u2)).map
        (fun st2 => objGet st2.tokens id) = .ok none ∧
    ((setTokenD st id (.num 5) u1).bind (fun st1 => setTokenD st1 id .null u2)).map
        (fun st2 => hasId st2.tokensInstances id) = .ok false ∧
    ((setTokenD st id (.num 5) u1).bind (fun st1 => setTokenD st1 id .null u2)).map
        (fun st2 => objGet st2.persistedTokens id) = .ok none ∧
    (u2 = true →
      ((setTokenD st id (.num 5) u1).bind (fun st1 => setTokenD st1 id .null u2)).map
        (fun st2 => objGet st2.flowTokens id) = .ok none) := by
  by_cases h : hasId st.tokensInstances id
  · -- first call takes the update branch
    have hsome : (objGet st.tokens id).isSome = true := by rw [hcons]; exact h
    obtain ⟨e, he⟩ := Option.isSome_iff_exists.mp hsome
    refine ⟨?_, ?_, ?_, fun hu => ?_⟩ <;>
      simp [setTokenD, setToken, typeofJs, Except.bind, Except.map, h, he, *]
  · -- first call takes the create branch
    have h' : hasId st.tokensInstances id = false := by simpa using h
    refine ⟨?_, ?_, ?_, fun hu => ?_⟩ <;>
      simp [setTokenD, setToken, typeofJs, Except.bind, Except.map, h', *]

/-- **C4** (witness). The theorem applied at the empty token state, id
`"t"`, with a succeeding unregister on the delete call. -/
theorem c4_set_then_delete_token_witness :
    ((objGet (TokenState.mk [] [] [] []).tokens "t").isSome
        = hasId (TokenState.mk [] [] [] []).tokensInstances "t") ∧
    ((setTokenD (TokenState.mk [] [] [] []) "t" (.num 5) true).bind
        (fun st1 => setTokenD st1 "t" .null true)).map
      (fun st2 => objGet st2.tokens "t") = .ok none :=
  ⟨by decide,
    (c4_set_then_delete_token (TokenState.mk [] [] [] []) "t" true true (by decide)).1⟩

/-- **C8** (counterexample). The claim states the deprecation warning is
logged at most one time, not on every invocation. Invoking `setTagValue`
twice from a fresh state logs the warning twice. -/
theorem c8_counterexample :
    ((setTagValue c8State [] "t" "number" (.num 1) true).bind
        (fun p => setTagValue p.1 p.2 "t" "number" (.num 2) true)).map
      (fun p => countWarnings p.2) = .ok 2 ∧
    ¬ (2 ≤ 1) := by
  constructor
  · rfl
  · decide

/-- **C8** (amended). Every successful `setTagValue(id, opts, value)`
invocation appends the deprecation warning to the log — one more warning
per invocation, not once overall — and forwards to
`TokenRegistry.setToken` with the given id and value and the type taken
from `opts`. -/
theorem c8_amended (st : TokenState) (logs : List String) (id optsType : String)
    (value : JsVal) (unregOk : Bool) (st2 : TokenState) (logs2 : List String)
    (hok : setTagValue st logs id optsType value unregOk = .ok (st2, logs2)) :
    logs2 = logs ++ [deprecationWarning] ∧
    countWarnings logs2 = countWarnings logs + 1 ∧
    setToken st id value optsType unregOk = .ok st2 := by
  rcases hsk : setToken st id value optsType unregOk with e | st'
  · rw [setTagValue, hsk] at hok
    exact absurd hok (by simp)
  · rw [setTagValue, hsk] at hok
    simp only [Except.ok.injEq, Prod.mk.injEq] at hok
    obtain ⟨hst, hlogs⟩ := hok
    refine ⟨hlogs.symm, ?_, congrArg Except.ok hst⟩
    rw [← hlogs]
    simp [countWarnings]

/-- **C8** (witness). The amended theorem applied to a concrete first
invocation on the empty token state. -/
theorem c8_amended_witness :
    setTagValue c8State [] "t" "number" (.num 1) true
      = .ok ({ tokens := [("t", { type := "number", value := .num 1 })],
               tokensInstances := ["t"],
               flowTokens := [("t", { type := "number", value := .num 1 })],
               persistedTokens := [("t", { type := "number", value := .num 1 })] },
             [deprecationWarning]) ∧
    countWarnings [deprecationWarning] = countWarnings [] + 1 :=
  ⟨rfl,
    (c8_amended c8State [] "t" "number" (.num 1) true _ [deprecationWarning] rfl).2.1⟩

/-- **C1** (code bug). In `part_000`, the catch block assigns
`error.stack = error.stack` (line 372), a self-assignment: the error that
crosses back to the caller carries the catch-site stack of the freshly
constructed `Error`, not the sandbox error's stack. At a concrete failing
run whose sandbox error has message `"x"` and stack `"sandbox-stack"`,
the V2 variant raises stack `"fresh-stack"` while the V1 variant
(`error.stack = err.stack`, `src/app.js` line 358) raises the original
`{message, stack}` pair as the claim states. -/
theorem c1_code_bug_eval :
    (runScriptV2 0 (.thrownError { message := "x", stack := "sandbox-stack" })
        "fresh-stack").result
      = .error { message := "x", stack := "fresh-stack" } ∧
    (runScriptV1 0 (.thrownError { message := "x", stack := "sandbox-stack" })
        "fresh-stack").result
      = .error { message := "x", stack := "sandbox-stack" } ∧
    ("fresh-stack" : String) ≠ "sandbox-stack" := by
  refine ⟨rfl, rfl, ?_⟩
  decide

/-- **C9** (confirmed). In both variants and for every outcome of the
sandbox run — success, compile error, thrown error, timeout — `runScript`
acquires the fresh host-API handle of this run (the current handle
counter, advancing it) and destroys exactly that handle on the way out:
the `finally` block releases the handle on every exit path. -/
theorem c9_handle_release (handleCounter : Nat) (outcome : RunOutcome) (freshStack : String) :
    ((runScriptV1 handleCounter outcome freshStack).destroyedHandles
        = [(runScriptV1 handleCounter outcome freshStack).acquiredHandle] ∧
      (runScriptV1 handleCounter outcome freshStack).acquiredHandle = handleCounter ∧
      (runScriptV1 handleCounter outcome freshStack).nextHandleCounter = handleCounter + 1) ∧
    ((runScriptV2 handleCounter outcome freshStack).destroyedHandles
        = [(runScriptV2 handleCounter outcome freshStack).acquiredHandle] ∧
      (runScriptV2 handleCounter outcome freshStack).acquiredHandle = handleCounter ∧
      (runScriptV2 handleCounter outcome freshStack).nextHandleCounter = handleCounter + 1) := by
  cases outcome <;>
    exact ⟨⟨rfl, rfl, rfl⟩, ⟨rfl, rfl, rfl⟩⟩

/-- **C5** (counterexample). The claim states migration 0 backfills
`name`/`id` only on registry entries that lack them. In `part_000`,
running the migration over a registry whose single entry already has both
a `name` (`"Foo"`) and an `id` (`"other-id"`) overwrites both with the
registry key `"k"`: the migration alters an entry that lacked nothing. -/
theorem c5_counterexample :
    objGet (onInitMigration0 c5State).scripts "k"
        = some { id := some "k", name := some "k", code := some "c", lastExecuted := none } ∧
    objGet c5State.scripts "k"
        = some { id := some "other-id", name := some "Foo", code := some "c",
                 lastExecuted := none } ∧
    (some "Foo" : Option String) ≠ some "k" := by
  refine ⟨rfl, rfl, ?_⟩
  decide

theorem migrateEntryV1_of_isSome (p : String × ScriptEntry)
    (hname : p.2.name.isSome = true) : migrateEntryV1 p = p := by
  rcases p with ⟨k, s⟩
  rcases hs : s.name with _ | n
  · rw [hs] at hname
    simp at hname
  · simp [migrateEntryV1, hs]

theorem migrateEntryV1_of_none (p : String × ScriptEntry)
    (hname : p.2.name = none) :
    migrateEntryV1 p = (p.1, { p.2 with name := some p.1, id := some p.1 }) := by
  rcases p with ⟨k, s⟩
  simp only at hname
  simp [migrateEntryV1, hname]

theorem migrateEntryV1_idem (p : String × ScriptEntry) :
    migrateEntryV1 (migrateEntryV1 p) = migrateEntryV1 p := by
  rcases p with ⟨k, s⟩
  rcases hs : s.name with _ | n
  · simp [migrateEntryV1, hs]
  · simp [migrateEntryV1, hs]

theorem migrateScriptsV1_noop (reg : Registry)
    (hall : ∀ p ∈ reg, p.2.name.isSome = true) : migrateScriptsV1 reg = reg := by
  induction reg with
  | nil => rfl
  | cons hd tl ih =>
    rw [migrateScriptsV1, List.map_cons]
    rw [migrateEntryV1_of_isSome hd (hall hd (List.mem_cons_self hd tl))]
    have htl := ih (fun p hp => hall p (List.mem_cons_of_mem hd hp))
    rw [migrateScriptsV1] at htl
    rw [htl]

/-- **C5** (amended). The app.js variant backfills `name` and `id` (both
set to the registry key) exactly on the entries whose `name` is not a
string, leaves entries with a string name untouched, is a no-op on a
fully-migrated registry, and is idempotent. The `part_000` variant
rewrites every entry's `name`/`id` to its registry key unconditionally,
but the `migrations[0]` marker makes the guarded onInit step run the
rewrite at most once — a second run of the step alters nothing — and the
rewrite itself is idempotent as well. -/
theorem c5_amended (reg : Registry) (st : MigStateV2) :
    (∀ p, p ∈ reg → p.2.name.isSome = true → p ∈ migrateScriptsV1 reg) ∧
    (∀ p, p ∈ reg → p.2.name = none →
      (p.1, { p.2 with name := some p.1, id := some p.1 }) ∈ migrateScriptsV1 reg) ∧
    (reg.all (fun p => p.2.name.isSome) = true → migrateScriptsV1 reg = reg) ∧
    migrateScriptsV1 (migrateScriptsV1 reg) = migrateScriptsV1 reg ∧
    onInitMigration0 (onInitMigration0 st) = onInitMigration0 st ∧
    migration0 (migration0 reg) = migration0 reg := by
  refine ⟨?_, ?_, ?_, ?_, ?_, ?_⟩
  · intro p hp hname
    exact migrateEntryV1_of_isSome p hname ▸ List.mem_map_of_mem migrateEntryV1 hp
  · intro p hp hname
    exact migrateEntryV1_of_none p hname ▸ List.mem_map_of_mem migrateEntryV1 hp
  · intro hall
    rw [List.all_eq_true] at hall
    exact migrateScriptsV1_noop reg (fun p hp => hall p hp)
  · rw [migrateScriptsV1, migrateScriptsV1, List.map_map]
    exact List.map_congr_left (fun p _ => migrateEntryV1_idem p)
  · rcases hm : st.migrations0 with _ | b
    · simp [onInitMigration0, hm]
    · simp [onInitMigration0, hm]
  · rw [migration0, migration0, List.map_map]
    exact List.map_congr_left (fun p _ => rfl)

/-- **C5** (witness). The amended theorem applied at a concrete
fully-migrated one-entry registry (and the concrete `c5State`), with the
`all`-names-present hypothesis discharged: the migration is a no-op
there. -/
theorem c5_amended_witness :
    ([("k", { id := some "k", name := some "k", code := some "c",
              lastExecuted := none })] : Registry).all (fun p => p.2.name.isSome) = true ∧
    migrateScriptsV1
        [("k", { id := some "k", name := some "k", code := some "c", lastExecuted := none })]
      = [("k", { id := some "k", name := some "k", code := some "c", lastExecuted := none })] :=
  ⟨by decide,
    (c5_amended
      [("k", { id := some "k", name := some "k", code := some "c", lastExecuted := none })]
      c5State).2.2.1 (by decide)⟩

/-- **C6** (counterexample). The claim states `update(id, partialFields)`
changes only the fields provided with non-null values. In `part_000`,
`updateScriptV2("a", { name: null })` — the `name` field provided with the
explicit null value — overwrites the stored name `"N"` with null, because
the object spread copies provided null fields. -/
theorem c6_counterexample :
    (updateScriptV2 c6State "a"
        { name := some none, code := none, lastExecuted := none }).2.name = none ∧
    objGet c6State.scripts "a"
      = some { id := some "a", name := some "N", code := some "C", lastExecuted := none } ∧
    (none : Option String) ≠ some "N" := by
  refine ⟨rfl, rfl, ?_⟩
  decide

/-- **C6** (amended). For every existing id: the app.js `updateScript`
merges exactly the provided non-null fields over the entry — `id` is never
touched, each absent-or-null payload field keeps the old value — stores
and persists the merge; in particular `update(id, {code: X})` preserves
`name` and `id`, and `update(id, {})` changes no content field. The
`part_000` `updateScriptV2` instead overwrites every *provided* field,
including fields provided as explicit null, keeps only absent fields, and
always forces the entry's `id` to the registry key; with a code-only or
empty payload it likewise preserves `name` and `code`. -/
theorem c6_amended (st : ScriptsState) (id : String) (p : UpdatePayload)
    (q : UpdatePayloadV2) (e : ScriptEntry) (he : objGet st.scripts id = some e) :
    ((updateScript st id p).2
        = { id := e.id, name := p.name.or e.name, code := p.code.or e.code,
            lastExecuted := p.lastExecuted.or e.lastExecuted } ∧
      objGet (updateScript st id p).1.scripts id = some (updateScript st id p).2 ∧
      objGet (updateScript st id p).1.persistedScripts id = some (updateScript st id p).2) ∧
    (∀ X, (updateScript st id { name := none, code := some X, lastExecuted := none }).2
        = { e with code := some X }) ∧
    (updateScript st id { name := none, code := none, lastExecuted := none }).2 = e ∧
    ((updateScriptV2 st id q).2
        = { id := some id, name := spreadField e.name q.name,
            code := spreadField e.code q.code,
            lastExecuted := spreadField e.lastExecuted q.lastExecuted } ∧
      objGet (updateScriptV2 st id q).1.scripts id = some (updateScriptV2 st id q).2 ∧
      objGet (updateScriptV2 st id q).1.persistedScripts id
        = some (updateScriptV2 st id q).2) ∧
    (∀ X, (updateScriptV2 st id
        { name := none, code := some (some X), lastExecuted := none }).2
        = { e with id := some id, code := some X }) ∧
    (updateScriptV2 st id { name := none, code := none, lastExecuted := none }).2
      = { e with id := some id } := by
  refine ⟨⟨?_, ?_, ?_⟩, ?_, ?_, ⟨?_, ?_, ?_⟩, ?_, ?_⟩
  · rcases p with ⟨pn, pc, pl⟩
    rcases pn <;> rcases pc <;> rcases pl <;> simp [updateScript, he, Option.or]
  · simp [updateScript, he]
  · simp [updateScript, he]
  · simp [updateScript, he]
  · simp [updateScript, he]
  · rcases q with ⟨qn, qc, ql⟩
    simp [updateScriptV2, he, spreadField]
  · simp [updateScriptV2, he]
  · simp [updateScriptV2, he]
  · intro X
    simp [updateScriptV2, he, spreadField]
  · simp [updateScriptV2, he, spreadField]

/-- **C6** (witness). The amended theorem applied at the concrete
`c6State` with the empty payloads: the entry under `"a"` exists and the
empty V1 update returns it unchanged. -/
theorem c6_amended_witness :
    objGet c6State.scripts "a"
      = some { id := some "a", name := some "N", code := some "C", lastExecuted := none } ∧
    (updateScript c6State "a" { name := none, code := none, lastExecuted := none }).2
      = { id := some "a", name := some "N", code := some "C", lastExecuted := none } :=
  ⟨rfl,
    (c6_amended c6State "a" { name := none, code := none, lastExecuted := none }
      { name := none, code := none, lastExecuted := none }
      { id := some "a", name := some "N", code := some "C", lastExecuted := none }
      rfl).2.2.1⟩

/-- **C10** (confirmed). For every id absent from the registry,
`updateScript` does not fail: it implicitly creates a fresh entry holding
exactly the provided non-null fields (and no `id` field), stores it under
the id and persists it; likewise the `part_000` `updateScript` creates an
entry holding the provided code. -/
theorem c10_implicit_create (st : ScriptsState) (id : String) (p : UpdatePayload)
    (hnone : objGet st.scripts id = none) :
    (updateScript st id p).2
        = { id := none, name := p.name, code := p.code, lastExecuted := p.lastExecuted } ∧
    objGet (updateScript st id p).1.scripts id = some (updateScript st id p).2 ∧
    objGet (updateScript st id p).1.persistedScripts id = some (updateScript st id p).2 ∧
    (∀ c, objGet (updateScriptP0 st id (some c)).scripts id
        = some { id := none, name := none, code := some c, lastExecuted := none } ∧
      objGet (updateScriptP0 st id (some c)).persistedScripts id
        = some { id := none, name := none, code := some c, lastExecuted := none }) := by
  refine ⟨?_, ?_, ?_, ?_⟩
  · rcases p with ⟨pn, pc, pl⟩
    rcases pn <;> rcases pc <;> rcases pl <;> simp [updateScript, hnone, emptyEntry]
  · simp [updateScript, hnone]
  · simp [updateScript, hnone]
  · intro c
    constructor <;> simp [updateScriptP0, hnone, emptyEntry]

/-- **C10** (witness). The theorem applied at the empty registry with id
`"x"` and payload `{name: "n", code: "c"}`. -/
theorem c10_implicit_create_witness :
    objGet c2State.scripts "x" = none ∧
    (updateScript c2State "x" { name := some "n", code := some "c", lastExecuted := none }).2
      = { id := none, name := some "n", code := some "c", lastExecuted := none } :=
  ⟨rfl,
    (c10_implicit_create c2State "x"
      { name := some "n", code := some "c", lastExecuted := none } rfl).1⟩

/-- **C7** (counterexample). The claim states `search` returns exactly the
scripts whose *name* contains the query case-insensitively. In `part_000`
the query is matched against the registry key instead: for the script
named `"foo"` stored under key `"u1"`, the query `"foo"` returns nothing
(while the app.js variant returns the script). -/
theorem c7_counterexample :
    onFlowGetScriptAutocompleteV2 c7Scripts "foo" = [] ∧
    onFlowGetScriptAutocompleteV1 c7Scripts "foo" = .ok [(some "u1", some "foo")] ∧
    jsIncludes "foo" "foo" = true := by
  refine ⟨by decide, by decide, by decide⟩

/-- **C7** (amended). The app.js variant implements the spec's `search`
exactly — on every registry whose entries all carry a name, it returns
precisely the scripts whose name contains the query as a case-insensitive
substring, as `{id, name}` pairs, in registry iteration order. The
`part_000` variant matches the registry key instead of the name and
returns the key in both fields; it coincides with the spec's search
exactly on registries where every entry's `name` and `id` equal its key
(the state its own migration 0 establishes). -/
theorem c7_amended (scripts : Registry) (q : String) :
    (scripts.all (fun p => p.2.name.isSome) = true →
      onFlowGetScriptAutocompleteV1 scripts q = .ok (searchSpec scripts q)) ∧
    (scripts.all (fun p => p.2.name == some p.1 && p.2.id == some p.1) = true →
      (onFlowGetScriptAutocompleteV2 scripts q).map (fun r => (some r.1, some r.2))
        = searchSpec scripts q) := by
  constructor
  · induction scripts with
    | nil => intro _; rfl
    | cons hd tl ih =>
      intro hall
      rw [List.all_cons, Bool.and_eq_true] at hall
      obtain ⟨h1, h2⟩ := hall
      rcases hd with ⟨k, s⟩
      rcases hs : s.name with _ | n
      · rw [hs] at h1; simp at h1
      · have htl := ih h2
        by_cases hc : jsIncludes (jsToLower n) (jsToLower q)
        · simp [onFlowGetScriptAutocompleteV1, searchSpec, hs, htl, hc, List.filter_cons]
        · simp [onFlowGetScriptAutocompleteV1, searchSpec, hs, htl, hc, List.filter_cons]
  · induction scripts with
    | nil => intro _; rfl
    | cons hd tl ih =>
      intro hall
      rw [List.all_cons, Bool.and_eq_true] at hall
      obtain ⟨h1, h2⟩ := hall
      rw [Bool.and_eq_true] at h1
      obtain ⟨hn, hi⟩ := h1
      rcases hd with ⟨k, s⟩
      have hn' : s.name = some k := by simpa using hn
      have hi' : s.id = some k := by simpa using hi
      have htl := ih h2
      by_cases hc : jsIncludes (jsToLower k) (jsToLower q)
      · simp [onFlowGetScriptAutocompleteV2, searchSpec, hn', hi', hc,
          List.filter_cons] at htl ⊢
        exact htl
      · simp [onFlowGetScriptAutocompleteV2, searchSpec, hn', hi', hc,
          List.filter_cons] at htl ⊢
        exact htl

/-- **C7** (witness). The amended theorem applied at the concrete
one-entry registry `c7Scripts` and the query `"FO"` (exercising the
case-insensitive match), with the names-present hypothesis discharged. -/
theorem c7_amended_witness :
    (c7Scripts.all (fun p => p.2.name.isSome) = true) ∧
    onFlowGetScriptAutocompleteV1 c7Scripts "FO" = .ok (searchSpec c7Scripts "FO") :=
  ⟨by decide, (c7_amended c7Scripts "FO").1 (by decide)⟩
